import Mathlib

/-!
Verification of the datacenter-map normalization, color/elevation mapping,
mock-data generation and map-update logic.

The TypeScript sources are embedded shallowly:
* JavaScript numbers are modelled as `JSNum` (a finite rational, `NaN`,
  `+Infinity` or `-Infinity`).
* Loosely typed record fields are modelled as `AuxVal`
  (`undefined` / `null` / number / string).
* `x.toFixed(p)` followed by `Number(...)` is modelled by `toFixedN p`,
  rounding a finite value to `p` decimal places with ties going up
  (ECMAScript `toFixed` picks the larger candidate on a tie, as does
  Mathlib `round`); calling `toFixed` on a non-number throws, which is
  modelled with `Except Unit`.
* `Object.entries` of the `hexagonData` field is modelled by
  `HexField.entriesOf`; for a string it yields the index/character
  entries, for other primitives it yields nothing.
-/

/-- Rounding to `p` decimal places, the model of
`Number(x.toFixed(p))` on a finite value. -/
def roundTo (p : ℕ) (q : ℚ) : ℚ :=
  ((round (q * (10 : ℚ) ^ p) : ℤ) : ℚ) / (10 : ℚ) ^ p

/-- A JavaScript number: finite value, `NaN`, or a signed infinity. -/
inductive JSNum where
  | fin (q : ℚ)
  | nan
  | posInf
  | negInf
deriving DecidableEq, Repr

/-- `Number(x.toFixed(p))` on a JavaScript number: finite values are
rounded to `p` decimals; `NaN.toFixed(p)` is `"NaN"` and
`Infinity.toFixed(p)` is `"Infinity"`, which `Number` converts back. -/
def toFixedN (p : ℕ) : JSNum → JSNum
  | .fin q => .fin (roundTo p q)
  | .nan => .nan
  | .posInf => .posInf
  | .negInf => .negInf

/-- `Math.min(a, b)`: `NaN` if either argument is `NaN`. -/
def jsMin : JSNum → JSNum → JSNum
  | .nan, _ => .nan
  | _, .nan => .nan
  | .negInf, _ => .negInf
  | _, .negInf => .negInf
  | .posInf, b => b
  | a, .posInf => a
  | .fin p, .fin q => .fin (min p q)

/-- `Math.max(a, b)`: `NaN` if either argument is `NaN`. -/
def jsMax : JSNum → JSNum → JSNum
  | .nan, _ => .nan
  | _, .nan => .nan
  | .posInf, _ => .posInf
  | _, .posInf => .posInf
  | .negInf, b => b
  | a, .negInf => a
  | .fin p, .fin q => .fin (max p q)

/-- The `opposition` enumeration `"low" | "medium" | "high"`. -/
inductive Opposition where
  | low
  | medium
  | high
deriving DecidableEq, Repr

/-- A loosely typed record field: absent (`undefined`), `null`, a number,
or a string. -/
inductive AuxVal where
  | undefV
  | nullV
  | num (n : JSNum)
  | str (s : String)
deriving DecidableEq, Repr

/-- JavaScript truthiness of an `AuxVal`: `undefined`, `null`, `0`, `NaN`
and `""` are falsy, everything else (including the infinities) is truthy. -/
def AuxVal.truthy : AuxVal → Bool
  | .undefV => false
  | .nullV => false
  | .num (.fin q) => decide (q ≠ 0)
  | .num .nan => false
  | .num .posInf => true
  | .num .negInf => true
  | .str s => decide (s ≠ "")

/-- The raw per-cell record of the `BackendHexagonData` schema in
`DatacenterMap.tsx` (fields may hold any value; `score` is validated
by the transform's filter). -/
structure RawHexInfo where
  score : AuxVal
  connection_points : AuxVal
  latency_ms : AuxVal
  avg_temperature : AuxVal
  connection_normalized_score : AuxVal
  latency_normalized_score : AuxVal
  temperature_normalized_score : AuxVal
  opposition : Option Opposition
deriving DecidableEq, Repr

/-- A value sitting under a key of the raw `hexagonData` mapping:
an object (a record) or a primitive. -/
inductive RawValue where
  | obj (info : RawHexInfo)
  | primNum (n : JSNum)
  | primStr (s : String)
  | primBool (b : Bool)
  | nullV
deriving DecidableEq, Repr

/-- The normalized per-cell record (`HexData` in `DatacenterMap.tsx`). -/
structure HexData where
  hex : String
  score : JSNum
  connection_points : AuxVal
  latency_ms : AuxVal
  avg_temperature : AuxVal
  connection_normalized_score : Option JSNum
  latency_normalized_score : Option JSNum
  temperature_normalized_score : Option JSNum
  opposition : Option Opposition
deriving DecidableEq, Repr

/-- The filter predicate of `transformBackendData`:
`hexId && typeof hexId === 'string' && hexInfo && typeof hexInfo === 'object'
&& typeof hexInfo.score === 'number' && !isNaN(hexInfo.score)`.
Note `!isNaN` admits the two infinities. -/
def entryValid (hexId : String) (v : RawValue) : Bool :=
  hexId ≠ "" &&
    match v with
    | .obj info =>
        match info.score with
        | .num .nan => false
        | .num _ => true
        | _ => false
    | _ => false

/-- `hexInfo.score.toFixed(2)`: throws (`.error`) when `score` is not a
number, otherwise rounds to two decimals. -/
def scoreFixed2 : AuxVal → Except Unit JSNum
  | .num n => .ok (toFixedN 2 n)
  | _ => .error ()

/-- `Math.max(0, Math.min(1, x))`, applied to the already rounded
score `Number(hexInfo.score.toFixed(2))`. -/
def clampScore (n : JSNum) : JSNum :=
  jsMax (.fin 0) (jsMin (.fin 1) n)

/-- `x !== null ? x : undefined`: replaces `null` by `undefined` and
copies every other value verbatim. -/
def copyNonNull : AuxVal → AuxVal
  | .nullV => .undefV
  | v => v

/-- `x !== null && x !== undefined ? Number(x.toFixed(p)) : undefined`:
absent and `null` become `undefined`; a number is rounded; a string has
no `toFixed` method, so evaluation throws. -/
def fixedOrUndef (p : ℕ) : AuxVal → Except Unit (Option JSNum)
  | .undefV => .ok none
  | .nullV => .ok none
  | .num n => .ok (some (toFixedN p n))
  | .str _ => .error ()

/-- The record built by the `.map` step of `transformBackendData`
in `DatacenterMap.tsx` for one surviving entry. -/
def mkHexData (hexId : String) (info : RawHexInfo) : Except Unit HexData := do
  let s ← scoreFixed2 info.score
  let cns ← fixedOrUndef 2 info.connection_normalized_score
  let lns ← fixedOrUndef 2 info.latency_normalized_score
  let tns ← fixedOrUndef 2 info.temperature_normalized_score
  .ok ⟨hexId, clampScore s, copyNonNull info.connection_points,
      copyNonNull info.latency_ms, copyNonNull info.avg_temperature,
      cns, lns, tns, info.opposition⟩

/-- Mapping one (key, value) entry. The `.map` only runs on filtered
entries, whose value is an object; on a primitive the property access
chain `hexInfo.score.toFixed(2)` would throw. -/
def mkEntry (k : String) (v : RawValue) : Except Unit HexData :=
  match v with
  | .obj info => mkHexData k info
  | _ => .error ()

/-- Sequencing the `.map` step over the filtered entry list; the first
thrown exception aborts the whole transform. -/
def mapEntries : List (String × RawValue) → Except Unit (List HexData)
  | [] => .ok []
  | (k, v) :: rest => do
    let hd ← mkEntry k v
    let tl ← mapEntries rest
    .ok (hd :: tl)

/-- The `hexagonData` field of a backend response: it may be absent,
`null`, a primitive, or an object holding the entry list. -/
inductive HexField where
  | undefV
  | nullV
  | numF (n : JSNum)
  | strF (s : String)
  | boolF (b : Bool)
  | objF (entries : List (String × RawValue))
deriving DecidableEq, Repr

/-- Truthiness of the `hexagonData` field, deciding `!data.hexagonData`. -/
def HexField.truthy : HexField → Bool
  | .undefV => false
  | .nullV => false
  | .numF (.fin q) => decide (q ≠ 0)
  | .numF .nan => false
  | .numF .posInf => true
  | .numF .negInf => true
  | .strF s => decide (s ≠ "")
  | .boolF b => b
  | .objF _ => true

/-- `Object.entries(data.hexagonData)`: the entry list of an object; the
index/character entries of a string; nothing for other primitives. -/
def HexField.entriesOf : HexField → List (String × RawValue)
  | .objF l => l
  | .strF s => s.toList.enum.map (fun p => (toString p.1, RawValue.primStr (String.mk [p.2])))
  | _ => []

/-- The argument of `updateMap` / `transformBackendData`: either a
nullish value (`null` or `undefined`, both failing the `!data` check)
or a response object carrying a `hexagonData` field. -/
inductive BackendInput where
  | nullInput
  | resp (hexagonData : HexField)
deriving DecidableEq, Repr

/-- `transformBackendData` of `DatacenterMap.tsx`:
`if (!data || !data.hexagonData) return [];` then
`Object.entries(data.hexagonData).filter(...).map(...)`. -/
def transformBackendData (data : BackendInput) : Except Unit (List HexData) :=
  match data with
  | .nullInput => .ok []
  | .resp hf =>
      if hf.truthy then
        mapEntries (hf.entriesOf.filter (fun p => entryValid p.1 p.2))
      else
        .ok []

/-- `validateHexData`: every branch of the source function returns
`true` (invalid entries only produce console warnings). -/
def validateHexData : BackendInput → Bool
  | .nullInput => true
  | .resp _ => true

/-- `updateMap` as a state transition on the current hexagon list:
the body is wrapped in `try`/`catch`, so a thrown exception during the
transform leaves the previous state in place; otherwise `setHexData`
installs the transformed batch. -/
def updateMap (current : List HexData) (data : BackendInput) : List HexData :=
  if validateHexData data then
    match transformBackendData data with
    | .ok l => l
    | .error _ => current
  else
    current

/-!
The earlier schema variant (`part_003`): raw fields `avgTemp`,
`gridDistance`, `internetSpeed`, `nbGridConnections`, the four
normalized sub-scores and `opposition`. Its transform guards the
auxiliary fields by truthiness (`hexInfo.avgTemp ? ... : undefined`),
not by a null/undefined check.
-/

/-- The raw per-cell record of the `part_003` schema. -/
structure RawHexInfoV1 where
  score : AuxVal
  avgTemp : AuxVal
  gridDistance : AuxVal
  internetSpeed : AuxVal
  nbGridConnections : AuxVal
  internetSpeedNorm : AuxVal
  gridDistanceNorm : AuxVal
  nbGridConnectionsNorm : AuxVal
  avgTempNorm : AuxVal
  opposition : Option Opposition
deriving DecidableEq, Repr

/-- The normalized per-cell record of the `part_003` schema. -/
structure HexDataV1 where
  hex : String
  score : JSNum
  avgTemp : Option JSNum
  gridDistance : Option JSNum
  internetSpeed : Option JSNum
  nbGridConnections : AuxVal
  internetSpeedNorm : Option JSNum
  gridDistanceNorm : Option JSNum
  nbGridConnectionsNorm : Option JSNum
  avgTempNorm : Option JSNum
  opposition : Option Opposition
deriving DecidableEq, Repr

/-- `x ? Number(x.toFixed(p)) : undefined`: a falsy value (absent,
`null`, `0`, `NaN`, `""`) becomes `undefined`; a truthy number is
rounded; a truthy string has no `toFixed`, so evaluation throws. -/
def truthyFixed (p : ℕ) (v : AuxVal) : Except Unit (Option JSNum) :=
  if v.truthy then
    match v with
    | .num n => .ok (some (toFixedN p n))
    | _ => .error ()
  else
    .ok none

/-- `x || undefined`: a falsy value becomes `undefined`, a truthy value
is copied verbatim. -/
def truthyOrUndef (v : AuxVal) : AuxVal :=
  if v.truthy then v else .undefV

/-- The record built by the `.map` step of the `part_003`
`transformBackendData` for one surviving entry. -/
def mkHexDataV1 (hexId : String) (info : RawHexInfoV1) : Except Unit HexDataV1 := do
  let s ← scoreFixed2 info.score
  let temp ← truthyFixed 1 info.avgTemp
  let dist ← truthyFixed 1 info.gridDistance
  let speed ← truthyFixed 0 info.internetSpeed
  let speedNorm ← truthyFixed 2 info.internetSpeedNorm
  let distNorm ← truthyFixed 2 info.gridDistanceNorm
  let connNorm ← truthyFixed 2 info.nbGridConnectionsNorm
  let tempNorm ← truthyFixed 2 info.avgTempNorm
  .ok ⟨hexId, clampScore s, temp, dist, speed,
      truthyOrUndef info.nbGridConnections,
      speedNorm, distNorm, connNorm, tempNorm, info.opposition⟩

/-!
The color/elevation mapper of `DatacenterMap.tsx` (`getFillColor`,
`getElevation`, `getLineColor` of the score layer). The normalizer
always produces a finite score (the filter rejects `NaN` and the
clamp sends the infinities to `1` and `0`), so the mapper is modelled
on the rational score value.
-/

/-- An RGBA color with integer channels. -/
structure Rgba where
  r : ℤ
  g : ℤ
  b : ℤ
  a : ℤ
deriving DecidableEq, Repr

/-- Band 1 of `getFillColor` (`normalizedValue < 0.3`), extended to all
rationals: `t = s / 0.3`, `[255, Math.round(100 + 155 * t), 50, 220]`. -/
def band1 (s : ℚ) : Rgba :=
  ⟨255, round (100 + 155 * (s / (3 / 10))), 50, 220⟩

/-- Band 2 of `getFillColor` (`0.3 <= normalizedValue < 0.7`), extended:
`t = (s - 0.3) / 0.4`, `[255, Math.round(255), Math.round(50 + 205 * t), 220]`. -/
def band2 (s : ℚ) : Rgba :=
  ⟨255, round (255 : ℚ), round (50 + 205 * ((s - 3 / 10) / (4 / 10))), 220⟩

/-- Band 3 of `getFillColor` (`normalizedValue >= 0.7`), extended:
`t = (s - 0.7) / 0.3`,
`[Math.round(255 - 100 * t), 255, Math.round(255 - 155 * t), 220]`. -/
def band3 (s : ℚ) : Rgba :=
  ⟨round (255 - 100 * ((s - 7 / 10) / (3 / 10))), 255,
    round (255 - 155 * ((s - 7 / 10) / (3 / 10))), 220⟩

/-- `getFillColor` on the score: clamp to `[0,1]`, then dispatch on the
three bands. -/
def getFillColor (score : ℚ) : Rgba :=
  let nv := max 0 (min 1 score)
  if nv < 3 / 10 then band1 nv
  else if nv < 7 / 10 then band2 nv
  else band3 nv

/-- The pre-rounding green channel of band 1, `100 + 155 * (s / 0.3)`. -/
def preBand1G (s : ℚ) : ℚ := 100 + 155 * (s / (3 / 10))

/-- The pre-rounding blue channel of band 2, `50 + 205 * ((s - 0.3) / 0.4)`. -/
def preBand2B (s : ℚ) : ℚ := 50 + 205 * ((s - 3 / 10) / (4 / 10))

/-- The pre-rounding red channel of band 3, `255 - 100 * ((s - 0.7) / 0.3)`. -/
def preBand3R (s : ℚ) : ℚ := 255 - 100 * ((s - 7 / 10) / (3 / 10))

/-- The pre-rounding blue channel of band 3, `255 - 155 * ((s - 0.7) / 0.3)`. -/
def preBand3B (s : ℚ) : ℚ := 255 - 155 * ((s - 7 / 10) / (3 / 10))

/-- `getElevation`: `d.score * 5000`. -/
def getElevation (score : ℚ) : ℚ := score * 5000

/-- `getLineColor`: `d.score > 0.8 ? [255, 255, 255, 120] : [255, 255, 255, 60]`. -/
def getLineColor (score : ℚ) : Rgba :=
  if score > 8 / 10 then ⟨255, 255, 255, 120⟩ else ⟨255, 255, 255, 60⟩

/-- Modelled from the spec. The spec's stated normalization order for the
score: clamp `s` to `[0,1]` first, then round to two decimal places
(the code rounds first and clamps afterwards). -/
def specScore (s : ℚ) : ℚ := roundTo 2 (max 0 (min 1 s))

/-!
The mock data generator `generateMockHexagonData` of the analyze route
(`part_000`). Each loop iteration consumes six uniform draws from
`Math.random()`; the random subset selection (`sort` with a random
comparator and `slice`) is abstracted as the list of selected hex ids,
and the per-iteration draws are passed as a list, zipped with the ids.
-/

/-- The six `Math.random()` draws consumed by one loop iteration of the
mock generator: score, temperature, grid distance, internet speed,
grid connections, opposition. -/
structure MockDraws where
  rScore : ℚ
  rTemp : ℚ
  rDist : ℚ
  rSpeed : ℚ
  rConn : ℚ
  rOpp : ℚ
deriving DecidableEq, Repr

/-- Every `Math.random()` draw lies in `[0, 1)`. -/
def MockDraws.valid (d : MockDraws) : Prop :=
  0 ≤ d.rScore ∧ d.rScore < 1 ∧ 0 ≤ d.rTemp ∧ d.rTemp < 1 ∧
    0 ≤ d.rDist ∧ d.rDist < 1 ∧ 0 ≤ d.rSpeed ∧ d.rSpeed < 1 ∧
    0 ≤ d.rConn ∧ d.rConn < 1 ∧ 0 ≤ d.rOpp ∧ d.rOpp < 1

/-- One generated record of the mock `HexagonData` schema. -/
structure MockHexEntry where
  score : ℚ
  internetSpeed : ℚ
  gridDistance : ℚ
  nbGridConnections : ℤ
  avgTemp : ℚ
  internetSpeedNorm : ℚ
  gridDistanceNorm : ℚ
  nbGridConnectionsNorm : ℚ
  avgTempNorm : ℚ
  opposition : Opposition
deriving DecidableEq, Repr

/-- The raw (pre-rounding) score drawn for a scenario:
`good`: `Math.random() * 0.4 + 0.6`; `bad`: `Math.random() * 0.4 + 0.0`;
otherwise `Math.random()`. -/
def mockRawScore (scenario : String) (d : MockDraws) : ℚ :=
  if scenario = "good" then d.rScore * (4 / 10) + 6 / 10
  else if scenario = "bad" then d.rScore * (4 / 10)
  else d.rScore

/-- One loop iteration of `generateMockHexagonData`: draw the raw
fields per scenario, compute the normalized sub-scores, and round
every output value. -/
def mockEntry (scenario : String) (d : MockDraws) : MockHexEntry :=
  let score := mockRawScore scenario d
  let avgTemp :=
    if scenario = "good" then d.rTemp * 5 + 8
    else if scenario = "bad" then d.rTemp * 10 + 20
    else d.rTemp * 15 + 8
  let gridDistance :=
    if scenario = "good" then d.rDist * 2 + 1 / 2
    else if scenario = "bad" then d.rDist * 8 + 5
    else d.rDist * 10
  let internetSpeed :=
    if scenario = "good" then d.rSpeed * 200 + 800
    else if scenario = "bad" then d.rSpeed * 200 + 100
    else d.rSpeed * 700 + 200
  let nbGridConnections : ℤ :=
    if scenario = "good" then ⌊d.rConn * 3⌋ + 3
    else if scenario = "bad" then ⌊d.rConn * 2⌋ + 1
    else ⌊d.rConn * 4⌋ + 1
  let opposition :=
    if scenario = "good" then (if d.rOpp > 7 / 10 then Opposition.medium else Opposition.low)
    else if scenario = "bad" then (if d.rOpp > 3 / 10 then Opposition.high else Opposition.medium)
    else [Opposition.low, Opposition.medium, Opposition.high].getD (⌊d.rOpp * 3⌋).toNat Opposition.high
  let internetSpeedNorm := min (internetSpeed / 1000) 1
  let gridDistanceNorm := max 0 (1 - gridDistance / 15)
  let nbGridConnectionsNorm := min ((nbGridConnections : ℚ) / 5) 1
  let avgTempNorm := max 0 (1 - (avgTemp - 5) / 25)
  ⟨roundTo 2 score, roundTo 0 internetSpeed, roundTo 1 gridDistance,
    nbGridConnections, roundTo 1 avgTemp, roundTo 2 internetSpeedNorm,
    roundTo 2 gridDistanceNorm, roundTo 2 nbGridConnectionsNorm,
    roundTo 2 avgTempNorm, opposition⟩

/-- The mock generator over the selected hex ids and their draws:
the data mapping, and the highlighted ids (`good`: raw score `> 0.8`
and index `< 3`; `mixed`/default: raw score `> 0.7` and index `< 2`;
`bad`: none). -/
def generateMockHexagonData (scenario : String) (ids : List String)
    (draws : List MockDraws) : List (String × MockHexEntry) × List String :=
  let sel := ids.zip draws
  let data := sel.map (fun p => (p.1, mockEntry scenario p.2))
  let highlighted := sel.enum.filterMap (fun p =>
    if scenario = "good" then
      if mockRawScore scenario p.2.2 > 8 / 10 ∧ p.1 < 3 then some p.2.1 else none
    else if scenario = "bad" then none
    else if mockRawScore scenario p.2.2 > 7 / 10 ∧ p.1 < 2 then some p.2.1 else none)
  (data, highlighted)

/-! Helper lemmas. -/

@[simp]
theorem except_ok_bind {α β : Type} (a : α) (f : α → Except Unit β) :
    (Except.ok a >>= f) = f a := rfl

@[simp]
theorem except_error_bind {α β : Type} (u : Unit) (f : α → Except Unit β) :
    ((Except.error u : Except Unit α) >>= f) = Except.error u := rfl

theorem except_bind_ok_elim {α β : Type} {e : Except Unit α} {f : α → Except Unit β} {b : β}
    (h : (e >>= f) = .ok b) : ∃ a, e = .ok a ∧ f a = .ok b := by
  cases e with
  | error u => simp at h
  | ok a => exact ⟨a, rfl, by simpa using h⟩

theorem round_mono_rat {x y : ℚ} (h : x ≤ y) : round x ≤ round y := by
  rw [round_eq, round_eq]
  exact Int.floor_mono (by linarith)

theorem roundTo_mono (p : ℕ) {x y : ℚ} (h : x ≤ y) : roundTo p x ≤ roundTo p y := by
  unfold roundTo
  have hp : (0 : ℚ) < (10 : ℚ) ^ p := by positivity
  have hm : x * (10 : ℚ) ^ p ≤ y * (10 : ℚ) ^ p :=
    mul_le_mul_of_nonneg_right h hp.le
  have hr : ((round (x * (10 : ℚ) ^ p) : ℤ) : ℚ) ≤ ((round (y * (10 : ℚ) ^ p) : ℤ) : ℚ) := by
    exact_mod_cast round_mono_rat hm
  exact (div_le_div_iff_of_pos_right hp).mpr hr

theorem roundTo_two_zero : roundTo 2 0 = 0 := by
  norm_num [roundTo, round_eq]

theorem roundTo_two_one : roundTo 2 1 = 1 := by
  norm_num [roundTo, round_eq]

theorem roundTo_two_nonneg {q : ℚ} (h : 0 ≤ q) : 0 ≤ roundTo 2 q := by
  have := roundTo_mono 2 h
  rwa [roundTo_two_zero] at this

theorem roundTo_two_le_one {q : ℚ} (h : q ≤ 1) : roundTo 2 q ≤ 1 := by
  have := roundTo_mono 2 h
  rwa [roundTo_two_one] at this

/-- Rounding to two decimals commutes with clamping to `[0,1]`: the
spec's clamp-then-round equals the code's round-then-clamp. -/
theorem clamp_roundTo_comm (q : ℚ) :
    max 0 (min 1 (roundTo 2 q)) = roundTo 2 (max 0 (min 1 q)) := by
  rcases le_total q 0 with h0 | h0
  · have hq1 : q ≤ 1 := h0.trans zero_le_one
    have hr0 : roundTo 2 q ≤ 0 := by
      have := roundTo_mono 2 h0
      rwa [roundTo_two_zero] at this
    rw [min_eq_right hq1, max_eq_left h0, roundTo_two_zero,
      min_eq_right (hr0.trans zero_le_one), max_eq_left hr0]
  · rcases le_total q 1 with h1 | h1
    · rw [min_eq_right h1, max_eq_right h0,
        min_eq_right (roundTo_two_le_one h1), max_eq_right (roundTo_two_nonneg h0)]
    · have hr1 : 1 ≤ roundTo 2 q := by
        have := roundTo_mono 2 h1
        rwa [roundTo_two_one] at this
      rw [min_eq_left h1, max_eq_right zero_le_one, roundTo_two_one,
        min_eq_left hr1, max_eq_right zero_le_one]

theorem clampScore_fin (q : ℚ) :
    clampScore (.fin q) = .fin (max 0 (min 1 q)) := rfl

theorem mkHexData_ok {k : String} {info : RawHexInfo} {hd : HexData}
    (hok : mkHexData k info = .ok hd) :
    ∃ s cns lns tns,
      scoreFixed2 info.score = Except.ok s ∧
      fixedOrUndef 2 info.connection_normalized_score = Except.ok cns ∧
      fixedOrUndef 2 info.latency_normalized_score = Except.ok lns ∧
      fixedOrUndef 2 info.temperature_normalized_score = Except.ok tns ∧
      hd = ⟨k, clampScore s, copyNonNull info.connection_points,
          copyNonNull info.latency_ms, copyNonNull info.avg_temperature,
          cns, lns, tns, info.opposition⟩ := by
  unfold mkHexData at hok
  obtain ⟨s, hs, hok⟩ := except_bind_ok_elim hok
  obtain ⟨cns, h1, hok⟩ := except_bind_ok_elim hok
  obtain ⟨lns, h2, hok⟩ := except_bind_ok_elim hok
  obtain ⟨tns, h3, hok⟩ := except_bind_ok_elim hok
  exact ⟨s, cns, lns, tns, hs, h1, h2, h3, (Except.ok.injEq _ _ ▸ hok).symm⟩

theorem mapEntries_forall₂ {xs : List (String × RawValue)} {l : List HexData}
    (h : mapEntries xs = .ok l) :
    List.Forall₂ (fun p hd => mkEntry p.1 p.2 = .ok hd) xs l := by
  induction xs generalizing l with
  | nil =>
    simp only [mapEntries, Except.ok.injEq] at h
    subst h
    exact .nil
  | cons p rest ih =>
    obtain ⟨k, v⟩ := p
    unfold mapEntries at h
    obtain ⟨hd, he, h⟩ := except_bind_ok_elim h
    obtain ⟨tl, ht, h⟩ := except_bind_ok_elim h
    obtain rfl : hd :: tl = l := by simpa using h
    exact .cons he (ih ht)

theorem mkEntry_hex {k : String} {v : RawValue} {hd : HexData}
    (h : mkEntry k v = .ok hd) : hd.hex = k := by
  cases v with
  | obj info =>
    obtain ⟨s, cns, lns, tns, _, _, _, _, rfl⟩ := mkHexData_ok (by simpa [mkEntry] using h)
    rfl
  | primNum n => simp [mkEntry] at h
  | primStr s => simp [mkEntry] at h
  | primBool b => simp [mkEntry] at h
  | nullV => simp [mkEntry] at h

theorem forall₂_mem_left {α β : Type} {R : α → β → Prop} {xs : List α} {l : List β}
    (h : List.Forall₂ R xs l) {a : α} (ha : a ∈ xs) : ∃ b ∈ l, R a b := by
  induction h with
  | nil => cases ha
  | cons hr _ ih =>
    rcases List.mem_cons.mp ha with rfl | ha2
    · exact ⟨_, List.mem_cons_self _ _, hr⟩
    · obtain ⟨b, hb, hrb⟩ := ih ha2
      exact ⟨b, List.mem_cons_of_mem _ hb, hrb⟩

theorem forall₂_mem_right {α β : Type} {R : α → β → Prop} {xs : List α} {l : List β}
    (h : List.Forall₂ R xs l) {b : β} (hb : b ∈ l) : ∃ a ∈ xs, R a b := by
  induction h with
  | nil => cases hb
  | cons hr _ ih =>
    rcases List.mem_cons.mp hb with rfl | hb2
    · exact ⟨_, List.mem_cons_self _ _, hr⟩
    · obtain ⟨a, ha, hra⟩ := ih hb2
      exact ⟨a, List.mem_cons_of_mem _ ha, hra⟩

theorem forall₂_hex_map {xs : List (String × RawValue)} {l : List HexData}
    (h : List.Forall₂ (fun p hd => mkEntry p.1 p.2 = .ok hd) xs l) :
    l.map HexData.hex = xs.map Prod.fst := by
  induction h with
  | nil => rfl
  | cons hr _ ih => simp [List.map_cons, ih, mkEntry_hex hr]

theorem mapEntries_hex_map {xs : List (String × RawValue)} {l : List HexData}
    (h : mapEntries xs = .ok l) : l.map HexData.hex = xs.map Prod.fst :=
  forall₂_hex_map (mapEntries_forall₂ h)

theorem nodup_keys_value_eq {entries : List (String × RawValue)}
    (hnd : (entries.map Prod.fst).Nodup) {k : String} {v v' : RawValue}
    (h1 : (k, v) ∈ entries) (h2 : (k, v') ∈ entries) : v = v' := by
  induction entries with
  | nil => cases h1
  | cons p rest ih =>
    rw [List.map_cons, List.nodup_cons] at hnd
    obtain ⟨hk, hrest⟩ := hnd
    rcases List.mem_cons.mp h1 with h1h | h1t
    · rcases List.mem_cons.mp h2 with h2h | h2t
      · exact (Prod.ext_iff.mp (h1h.trans h2h.symm)).2
      · have hk1 : k = p.1 := congrArg Prod.fst h1h
        rw [← hk1] at hk
        exact absurd (List.mem_map.mpr ⟨(k, v'), h2t, rfl⟩) hk
    · rcases List.mem_cons.mp h2 with h2h | h2t
      · have hk1 : k = p.1 := congrArg Prod.fst h2h
        rw [← hk1] at hk
        exact absurd (List.mem_map.mpr ⟨(k, v), h1t, rfl⟩) hk
      · exact ih hrest h1t h2t

theorem transform_objF_eq (entries : List (String × RawValue)) :
    transformBackendData (.resp (.objF entries))
      = mapEntries (entries.filter (fun p => entryValid p.1 p.2)) := by
  simp [transformBackendData, HexField.truthy, HexField.entriesOf]

theorem roundTo_two_fourTenths : roundTo 2 (4 / 10) = 4 / 10 := by
  norm_num [roundTo, round_eq]

theorem roundTo_two_sixTenths : roundTo 2 (6 / 10) = 6 / 10 := by
  norm_num [roundTo, round_eq]

theorem mkHexDataV1_ok {k : String} {info : RawHexInfoV1} {hd : HexDataV1}
    (hok : mkHexDataV1 k info = .ok hd) :
    ∃ s temp dist speed speedNorm distNorm connNorm tempNorm,
      scoreFixed2 info.score = Except.ok s ∧
      truthyFixed 1 info.avgTemp = Except.ok temp ∧
      truthyFixed 1 info.gridDistance = Except.ok dist ∧
      truthyFixed 0 info.internetSpeed = Except.ok speed ∧
      truthyFixed 2 info.internetSpeedNorm = Except.ok speedNorm ∧
      truthyFixed 2 info.gridDistanceNorm = Except.ok distNorm ∧
      truthyFixed 2 info.nbGridConnectionsNorm = Except.ok connNorm ∧
      truthyFixed 2 info.avgTempNorm = Except.ok tempNorm ∧
      hd = ⟨k, clampScore s, temp, dist, speed,
          truthyOrUndef info.nbGridConnections,
          speedNorm, distNorm, connNorm, tempNorm, info.opposition⟩ := by
  unfold mkHexDataV1 at hok
  obtain ⟨s, hs, hok⟩ := except_bind_ok_elim hok
  obtain ⟨temp, h1, hok⟩ := except_bind_ok_elim hok
  obtain ⟨dist, h2, hok⟩ := except_bind_ok_elim hok
  obtain ⟨speed, h3, hok⟩ := except_bind_ok_elim hok
  obtain ⟨speedNorm, h4, hok⟩ := except_bind_ok_elim hok
  obtain ⟨distNorm, h5, hok⟩ := except_bind_ok_elim hok
  obtain ⟨connNorm, h6, hok⟩ := except_bind_ok_elim hok
  obtain ⟨tempNorm, h7, hok⟩ := except_bind_ok_elim hok
  exact ⟨s, temp, dist, speed, speedNorm, distNorm, connNorm, tempNorm,
    hs, h1, h2, h3, h4, h5, h6, h7, (Except.ok.injEq _ _ ▸ hok).symm⟩

theorem truthyFixed_fin (p : ℕ) (q : ℚ) :
    truthyFixed p (.num (.fin q))
      = .ok (if q = 0 then none else some (.fin (roundTo p q))) := by
  by_cases h : q = 0 <;> simp [truthyFixed, AuxVal.truthy, toFixedN, h]

theorem truthyFixed_nan (p : ℕ) : truthyFixed p (.num .nan) = .ok none := rfl

theorem truthyFixed_undefV (p : ℕ) : truthyFixed p .undefV = .ok none := rfl

theorem truthyFixed_posInf (p : ℕ) :
    truthyFixed p (.num .posInf) = .ok (some .posInf) := rfl

/-- C7: `getElevation` satisfies `elevationFor(s) = s * 5000` for every
score, sends `0` to `0` and `1` to `5000`, and is monotone
non-decreasing. -/
theorem elevation_linear_and_monotone :
    (∀ s : ℚ, getElevation s = s * 5000)
    ∧ getElevation 0 = 0 ∧ getElevation 1 = 5000
    ∧ (∀ s1 s2 : ℚ, s1 ≤ s2 → getElevation s1 ≤ getElevation s2) := by
  refine ⟨fun s => rfl, by norm_num [getElevation], by norm_num [getElevation], ?_⟩
  intro s1 s2 h
  have := mul_le_mul_of_nonneg_right h (by norm_num : (0 : ℚ) ≤ 5000)
  simpa [getElevation] using this

/-- Witness for C7's monotonicity hypothesis at `s1 = 0`, `s2 = 1`. -/
theorem elevation_linear_and_monotone_witness :
    getElevation 0 ≤ getElevation 1 :=
  elevation_linear_and_monotone.2.2.2 0 1 zero_le_one

/-- C8: for every score in `[0,1]` the fill color's alpha channel is
`220`, and the outline is white with alpha `120` exactly when the score
is strictly greater than `0.8`, else white with alpha `60`. -/
theorem fill_alpha_and_line_threshold (s : ℚ) (h0 : 0 ≤ s) (h1 : s ≤ 1) :
    (getFillColor s).a = 220
    ∧ (8 / 10 < s → getLineColor s = ⟨255, 255, 255, 120⟩)
    ∧ (s ≤ 8 / 10 → getLineColor s = ⟨255, 255, 255, 60⟩) := by
  refine ⟨?_, ?_, ?_⟩
  · unfold getFillColor
    dsimp only
    split
    · rfl
    · split
      · rfl
      · rfl
  · intro h
    simp [getLineColor, h]
  · intro h
    simp [getLineColor, not_lt.mpr h]

/-- Witness for C8 at `s = 9/10`. -/
theorem fill_alpha_and_line_threshold_witness :
    (getFillColor (9 / 10)).a = 220
      ∧ getLineColor (9 / 10) = ⟨255, 255, 255, 120⟩ := by
  have h := fill_alpha_and_line_threshold (9 / 10) (by norm_num) (by norm_num)
  exact ⟨h.1, h.2.1 (by norm_num)⟩

/-- C6: `getFillColor` is continuous at the two band boundaries. The
pre-rounding channel formulas are linear, so each one-sided limit equals
the formula's value at the boundary: the band-1 formula at `0.3` gives
`(255, 255, 50)`, which is exactly the band-2 value used by
`getFillColor` at `0.3`, and the band-2 formula at `0.7` gives
`(255, 255, 255)`, exactly the band-3 value used at `0.7`. The two
linear-slope identities exhibit the moduli of continuity of the
non-constant channels. -/
theorem fill_color_continuous_at_band_boundaries :
    preBand1G (3 / 10) = 255 ∧ preBand2B (3 / 10) = 50
    ∧ (∀ s : ℚ, preBand1G s - 255 = (1550 / 3) * (s - 3 / 10))
    ∧ band1 (3 / 10) = ⟨255, 255, 50, 220⟩
    ∧ band2 (3 / 10) = ⟨255, 255, 50, 220⟩
    ∧ getFillColor (3 / 10) = ⟨255, 255, 50, 220⟩
    ∧ preBand2B (7 / 10) = 255 ∧ preBand3R (7 / 10) = 255 ∧ preBand3B (7 / 10) = 255
    ∧ (∀ s : ℚ, preBand2B s - 255 = (1025 / 2) * (s - 7 / 10))
    ∧ band2 (7 / 10) = ⟨255, 255, 255, 220⟩
    ∧ band3 (7 / 10) = ⟨255, 255, 255, 220⟩
    ∧ getFillColor (7 / 10) = ⟨255, 255, 255, 220⟩ := by
  refine ⟨by norm_num [preBand1G], by norm_num [preBand2B],
    fun s => by unfold preBand1G; ring,
    by norm_num [band1, round_eq, Rgba.mk.injEq],
    by norm_num [band2, round_eq, Rgba.mk.injEq],
    by norm_num [getFillColor, band2, round_eq, Rgba.mk.injEq, min_def, max_def],
    by norm_num [preBand2B], by norm_num [preBand3R], by norm_num [preBand3B],
    fun s => by unfold preBand2B; ring,
    by norm_num [band2, round_eq, Rgba.mk.injEq],
    by norm_num [band3, round_eq, Rgba.mk.injEq],
    by norm_num [getFillColor, band3, round_eq, Rgba.mk.injEq, min_def, max_def]⟩

/-- C3: when `hexagonData` is `null`, `undefined`, `{}`, or not an
object (a number, a string, a boolean), `transformBackendData` returns
the empty batch and never an error; likewise when the whole input is
nullish. -/
theorem transform_empty_on_degenerate_input :
    transformBackendData .nullInput = .ok []
    ∧ transformBackendData (.resp .undefV) = .ok []
    ∧ transformBackendData (.resp .nullV) = .ok []
    ∧ transformBackendData (.resp (.objF [])) = .ok []
    ∧ (∀ n : JSNum, transformBackendData (.resp (.numF n)) = .ok [])
    ∧ (∀ s : String, transformBackendData (.resp (.strF s)) = .ok [])
    ∧ (∀ b : Bool, transformBackendData (.resp (.boolF b)) = .ok []) := by
  refine ⟨rfl, rfl, rfl, ?_, ?_, ?_, ?_⟩
  · simp [transformBackendData, HexField.truthy, HexField.entriesOf, mapEntries]
  · intro n
    cases n <;>
      simp [transformBackendData, HexField.truthy, HexField.entriesOf, mapEntries]
  · intro s
    have hfil : ((HexField.strF s).entriesOf.filter (fun p => entryValid p.1 p.2)) = [] := by
      rw [List.filter_eq_nil_iff]
      intro p hp
      simp only [HexField.entriesOf, List.mem_map] at hp
      obtain ⟨a, _, rfl⟩ := hp
      simp [entryValid]
    simp only [transformBackendData]
    rw [hfil]
    simp [mapEntries]
  · intro b
    cases b <;>
      simp [transformBackendData, HexField.truthy, HexField.entriesOf, mapEntries]

/-- C5: `updateMap` is a total state transition (the model of "never
throws to the caller") and the update is atomic: either the transform
succeeds and its batch fully replaces the current one (the validator
returns `true` on every input), or the transform throws internally and
the previous batch is kept unchanged. Repeated `updateMap(null)` calls
leave the empty batch. The last conjunct shows the exception branch is
reachable: a surviving entry carrying a string in a normalized-score
field makes `toFixed` throw, and the previous batch is retained. -/
theorem updateMap_total_and_atomic :
    (∀ current data,
        (∃ l, transformBackendData data = .ok l ∧ updateMap current data = l)
        ∨ (transformBackendData data = .error () ∧ updateMap current data = current))
    ∧ (∀ current, updateMap current .nullInput = [])
    ∧ (∀ current, updateMap (updateMap current .nullInput) .nullInput = [])
    ∧ (∀ current, updateMap current
        (.resp (.objF [("a", .obj ⟨.num (.fin 1), .undefV, .undefV, .undefV,
          .str "x", .undefV, .undefV, none⟩)])) = current) := by
  have hval : ∀ data, validateHexData data = true := by
    intro data
    cases data <;> rfl
  refine ⟨?_, ?_, ?_, ?_⟩
  · intro current data
    cases htr : transformBackendData data with
    | ok l =>
      exact Or.inl ⟨l, rfl, by simp [updateMap, hval, htr]⟩
    | error u =>
      cases u
      exact Or.inr ⟨rfl, by simp [updateMap, hval, htr]⟩
  · intro current
    simp [updateMap, validateHexData, transformBackendData]
  · intro current
    simp [updateMap, validateHexData, transformBackendData]
  · intro current
    simp [updateMap, validateHexData, transformBackendData, HexField.truthy,
      HexField.entriesOf, entryValid, mapEntries, mkEntry, mkHexData,
      scoreFixed2, fixedOrUndef]

/-- C1: for a surviving entry whose raw score is a finite number `q`,
the normalized record's score equals the spec's
`round(clamp(q,0,1), 2)` (`specScore`), which always lies in `[0,1]`;
the code's round-then-clamp computation agrees with the spec's
clamp-then-round order for every finite `q`. -/
theorem score_clamped_and_rounded (k : String) (info : RawHexInfo) (q : ℚ)
    (hsc : info.score = .num (.fin q)) (hd : HexData)
    (hok : mkHexData k info = .ok hd) :
    hd.score = .fin (specScore q) ∧ 0 ≤ specScore q ∧ specScore q ≤ 1 := by
  obtain ⟨s, cns, lns, tns, hs, h1, h2, h3, rfl⟩ := mkHexData_ok hok
  rw [hsc] at hs
  simp only [scoreFixed2, toFixedN, Except.ok.injEq] at hs
  refine ⟨?_, ?_, ?_⟩
  · show clampScore s = .fin (specScore q)
    rw [← hs, clampScore_fin, specScore, clamp_roundTo_comm]
  · exact roundTo_two_nonneg (le_max_left 0 (min 1 q))
  · exact roundTo_two_le_one (max_le zero_le_one (min_le_left 1 q))

/-- Witness for C1 at the spec's own example: raw score `1.5`
normalizes to `1.0`. -/
theorem score_clamped_and_rounded_witness :
    (⟨"A", .fin 1, .undefV, .undefV, .undefV, none, none, none, none⟩ : HexData).score
        = .fin (specScore (3 / 2))
      ∧ 0 ≤ specScore (3 / 2) ∧ specScore (3 / 2) ≤ 1 :=
  score_clamped_and_rounded "A"
    ⟨.num (.fin (3 / 2)), .undefV, .undefV, .undefV, .undefV, .undefV, .undefV, none⟩
    (3 / 2) rfl _
    (by norm_num [mkHexData, scoreFixed2, fixedOrUndef, toFixedN, clampScore,
      jsMin, jsMax, copyNonNull, roundTo, round_eq, min_def, max_def])

/-- Counterexample to C2 as stated: an entry whose `score` is
`+Infinity` (a non-finite number) is NOT dropped — the filter only
rejects `NaN` and non-numbers (`typeof score === 'number' &&
!isNaN(score)`), so the entry survives with its score clamped to `1`. -/
theorem infinite_score_entry_survives :
    transformBackendData (.resp (.objF
        [("a", .obj ⟨.num .posInf, .undefV, .undefV, .undefV,
          .undefV, .undefV, .undefV, none⟩)]))
      = .ok [⟨"a", .fin 1, .undefV, .undefV, .undefV, none, none, none, none⟩] := by
  norm_num [transformBackendData, HexField.truthy, HexField.entriesOf, entryValid,
    mapEntries, mkEntry, mkHexData, scoreFixed2, fixedOrUndef, toFixedN,
    clampScore, jsMin, jsMax, copyNonNull]

/-- C2 amended: an entry is dropped exactly when it fails the filter
`entryValid` — its key is empty, its value is not an object, or its
`score` is missing, a non-number, or `NaN`; entries with score
`±Infinity` are retained. Every entry passing the filter is present in
the output batch, and with distinct input keys no dropped entry's key
appears in the output. -/
theorem drop_criterion_amended (entries : List (String × RawValue))
    (hnd : (entries.map Prod.fst).Nodup) (l : List HexData)
    (hok : transformBackendData (.resp (.objF entries)) = .ok l) :
    (∀ k v, (k, v) ∈ entries → entryValid k v = false → ∀ hd ∈ l, hd.hex ≠ k)
    ∧ (∀ k v, (k, v) ∈ entries → entryValid k v = true → ∃ hd ∈ l, hd.hex = k) := by
  rw [transform_objF_eq] at hok
  have hf2 := mapEntries_forall₂ hok
  constructor
  · intro k v hmem hinv hd hdl hhex
    obtain ⟨p, hpfil, hpok⟩ := forall₂_mem_right hf2 hdl
    have hpv : entryValid p.1 p.2 = true := (List.mem_filter.mp hpfil).2
    have hpm : p ∈ entries := (List.mem_filter.mp hpfil).1
    have hpk : p.1 = k := by rw [← mkEntry_hex hpok, hhex]
    have hpm2 : (k, p.2) ∈ entries := by
      rw [← hpk]
      simpa using hpm
    have hveq : v = p.2 := nodup_keys_value_eq hnd hmem hpm2
    have hkv : entryValid k v = true := by
      rw [hveq, ← hpk]
      exact hpv
    simp [hinv] at hkv
  · intro k v hmem hval
    have hfil : (k, v) ∈ entries.filter (fun p => entryValid p.1 p.2) :=
      List.mem_filter.mpr ⟨hmem, hval⟩
    obtain ⟨hd, hdl, hdok⟩ := forall₂_mem_left hf2 hfil
    exact ⟨hd, hdl, mkEntry_hex hdok⟩

/-- Witness for C2's amended statement: a batch with one valid entry
(score `-Infinity`, retained and clamped to `0`) and one invalid entry
(empty key), where the valid key is present and the invalid one absent. -/
theorem drop_criterion_amended_witness :
    ∃ hd ∈ [(⟨"a", .fin 0, .undefV, .undefV, .undefV, none, none, none, none⟩ : HexData)],
      hd.hex = "a" := by
  have h := drop_criterion_amended
    [("a", .obj ⟨.num .negInf, .undefV, .undefV, .undefV, .undefV, .undefV, .undefV, none⟩),
     ("", .nullV)]
    (by decide)
    [⟨"a", .fin 0, .undefV, .undefV, .undefV, none, none, none, none⟩]
    (by norm_num [transformBackendData, HexField.truthy, HexField.entriesOf,
      entryValid, mapEntries, mkEntry, mkHexData, scoreFixed2, fixedOrUndef,
      toFixedN, clampScore, jsMin, jsMax, copyNonNull])
  exact h.2 "a"
    (.obj ⟨.num .negInf, .undefV, .undefV, .undefV, .undefV, .undefV, .undefV, none⟩)
    (by simp) (by decide)

/-- C10: the normalizer never invents or duplicates cells — every
output record's id is a key of the input whose value alone determines
the record, the output is never longer than the input, and with
distinct input keys the output ids are distinct (each input key
contributes at most one output record). -/
theorem transform_no_invented_cells (entries : List (String × RawValue)) (l : List HexData)
    (hok : transformBackendData (.resp (.objF entries)) = .ok l) :
    (∀ hd ∈ l, ∃ v, (hd.hex, v) ∈ entries ∧ mkEntry hd.hex v = .ok hd)
    ∧ l.length ≤ entries.length
    ∧ ((entries.map Prod.fst).Nodup → (l.map HexData.hex).Nodup) := by
  rw [transform_objF_eq] at hok
  have hf2 := mapEntries_forall₂ hok
  refine ⟨?_, ?_, ?_⟩
  · intro hd hdl
    obtain ⟨p, hpfil, hpok⟩ := forall₂_mem_right hf2 hdl
    have hpm : p ∈ entries := (List.mem_filter.mp hpfil).1
    have hhex : hd.hex = p.1 := mkEntry_hex hpok
    refine ⟨p.2, ?_, ?_⟩
    · rw [hhex]
      simpa using hpm
    · rw [hhex]
      simpa using hpok
  · calc l.length = (entries.filter (fun p => entryValid p.1 p.2)).length :=
          hf2.length_eq.symm
      _ ≤ entries.length := List.length_filter_le _ _
  · intro hnd
    rw [mapEntries_hex_map hok]
    exact hnd.sublist ((List.filter_sublist entries).map Prod.fst)

/-- Witness for C10 on a two-entry batch where one entry is dropped. -/
theorem transform_no_invented_cells_witness :
    [(⟨"b", .fin 0, .undefV, .undefV, .undefV, none, none, none, none⟩ : HexData)].length
      ≤ [("b", RawValue.obj ⟨.num .negInf, .undefV, .undefV, .undefV,
            .undefV, .undefV, .undefV, none⟩),
         ("c", RawValue.primNum .nan)].length := by
  have h := transform_no_invented_cells
    [("b", .obj ⟨.num .negInf, .undefV, .undefV, .undefV, .undefV, .undefV, .undefV, none⟩),
     ("c", .primNum .nan)]
    [⟨"b", .fin 0, .undefV, .undefV, .undefV, none, none, none, none⟩]
    (by norm_num [transformBackendData, HexField.truthy, HexField.entriesOf,
      entryValid, mapEntries, mkEntry, mkHexData, scoreFixed2, fixedOrUndef,
      toFixedN, clampScore, jsMin, jsMax, copyNonNull])
  exact h.2.1

/-- C9: with every random draw in `[0,1)`, every entry the mock
generator produces under scenario `"good"` has (rounded) score at
least `0.6`, and every entry under `"bad"` has score at most `0.4`. -/
theorem mock_good_bad_score_bounds (ids : List String) (draws : List MockDraws)
    (hv : ∀ d ∈ draws, d.valid) :
    (∀ k e, (k, e) ∈ (generateMockHexagonData "good" ids draws).1 →
        (6 / 10 : ℚ) ≤ e.score)
    ∧ (∀ k e, (k, e) ∈ (generateMockHexagonData "bad" ids draws).1 →
        e.score ≤ (4 / 10 : ℚ)) := by
  constructor
  · intro k e hmem
    simp only [generateMockHexagonData, List.mem_map] at hmem
    obtain ⟨p, hp, heq⟩ := hmem
    have hdm : p.2 ∈ draws := (List.of_mem_zip hp).2
    have hdv := hv p.2 hdm
    have he : e = mockEntry "good" p.2 := (Prod.ext_iff.mp heq).2.symm
    have hsc : e.score = roundTo 2 (mockRawScore "good" p.2) := by
      rw [he]
      rfl
    rw [hsc]
    have hraw : (6 / 10 : ℚ) ≤ mockRawScore "good" p.2 := by
      have h0 : 0 ≤ p.2.rScore := hdv.1
      have hm : 0 ≤ p.2.rScore * (4 / 10 : ℚ) := by positivity
      simp [mockRawScore]
      linarith
    calc (6 / 10 : ℚ) = roundTo 2 (6 / 10) := roundTo_two_sixTenths.symm
      _ ≤ roundTo 2 (mockRawScore "good" p.2) := roundTo_mono 2 hraw
  · intro k e hmem
    simp only [generateMockHexagonData, List.mem_map] at hmem
    obtain ⟨p, hp, heq⟩ := hmem
    have hdm : p.2 ∈ draws := (List.of_mem_zip hp).2
    have hdv := hv p.2 hdm
    have he : e = mockEntry "bad" p.2 := (Prod.ext_iff.mp heq).2.symm
    have hsc : e.score = roundTo 2 (mockRawScore "bad" p.2) := by
      rw [he]
      rfl
    rw [hsc]
    have hraw : mockRawScore "bad" p.2 ≤ (4 / 10 : ℚ) := by
      have h1 : p.2.rScore < 1 := hdv.2.1
      have hm : p.2.rScore * (4 / 10 : ℚ) ≤ 1 * (4 / 10 : ℚ) :=
        mul_le_mul_of_nonneg_right h1.le (by norm_num)
      simp [mockRawScore]
      linarith
    calc roundTo 2 (mockRawScore "bad" p.2) ≤ roundTo 2 (4 / 10) := roundTo_mono 2 hraw
      _ = (4 / 10 : ℚ) := roundTo_two_fourTenths

/-- Witness for C9 with one selected id and the draw tuple `(1/2, ...)`. -/
theorem mock_good_bad_score_bounds_witness :
    (6 / 10 : ℚ) ≤ (mockEntry "good" ⟨1/2, 1/2, 1/2, 1/2, 1/2, 1/2⟩).score := by
  have h := mock_good_bad_score_bounds ["h3cell"] [⟨1/2, 1/2, 1/2, 1/2, 1/2, 1/2⟩]
    (by
      intro d hd
      simp only [List.mem_singleton] at hd
      subst hd
      refine ⟨by norm_num, by norm_num, by norm_num, by norm_num, by norm_num,
        by norm_num, by norm_num, by norm_num, by norm_num, by norm_num,
        by norm_num, by norm_num⟩)
  exact h.1 "h3cell" (mockEntry "good" ⟨1/2, 1/2, 1/2, 1/2, 1/2, 1/2⟩)
    (by simp [generateMockHexagonData])

/-- Counterexample to C4 as stated: a surviving entry whose `avgTemp`
is exactly `0` (present and finite) has its `avgTemp` OMITTED from the
normalized record — the guard `hexInfo.avgTemp ? ... : undefined` tests
truthiness, and `0` is falsy, so `0` is treated as absent rather than
preserved. -/
theorem aux_zero_treated_as_absent :
    mkHexDataV1 "a"
        ⟨.num (.fin 1), .num (.fin 0), .undefV, .undefV, .undefV,
          .undefV, .undefV, .undefV, .undefV, none⟩
      = .ok ⟨"a", .fin 1, none, none, none, .undefV,
          none, none, none, none, none⟩ := by
  norm_num [mkHexDataV1, scoreFixed2, truthyFixed, truthyOrUndef, AuxVal.truthy,
    toFixedN, clampScore, jsMin, jsMax, roundTo, round_eq, min_def, max_def]

/-- C4 amended: in the `part_003` normalizer an auxiliary field is
kept exactly when its value is truthy — a nonzero finite number is
rounded to the configured precision (1 decimal for `avgTemp` and
`gridDistance`, 0 for `internetSpeed`, 2 for the normalized
sub-scores) and `nbGridConnections` is copied unrounded, while a falsy
value (absent, `null`, `NaN`, or exactly `0`) is omitted and
`+Infinity` (non-finite but truthy) is kept. In the
`DatacenterMap.tsx` variant the raw fields `connection_points`,
`latency_ms` and `avg_temperature` are copied verbatim without any
rounding whenever not `null` (`NaN` and the infinities included), and a
numeric normalized sub-score is rounded to 2 decimals even when it is
`NaN` or infinite. -/
theorem aux_field_truthiness_and_copy :
    (∀ (k : String) (info : RawHexInfoV1) (hd : HexDataV1),
      mkHexDataV1 k info = .ok hd →
      (∀ q : ℚ, info.avgTemp = .num (.fin q) →
          hd.avgTemp = if q = 0 then none else some (.fin (roundTo 1 q)))
      ∧ (info.avgTemp = .num .nan → hd.avgTemp = none)
      ∧ (info.avgTemp = .undefV → hd.avgTemp = none)
      ∧ (info.avgTemp = .num .posInf → hd.avgTemp = some .posInf)
      ∧ (∀ q : ℚ, info.gridDistance = .num (.fin q) →
          hd.gridDistance = if q = 0 then none else some (.fin (roundTo 1 q)))
      ∧ (∀ q : ℚ, info.internetSpeed = .num (.fin q) →
          hd.internetSpeed = if q = 0 then none else some (.fin (roundTo 0 q)))
      ∧ (∀ q : ℚ, info.avgTempNorm = .num (.fin q) →
          hd.avgTempNorm = if q = 0 then none else some (.fin (roundTo 2 q)))
      ∧ (info.nbGridConnections.truthy = false → hd.nbGridConnections = .undefV)
      ∧ (info.nbGridConnections.truthy = true →
          hd.nbGridConnections = info.nbGridConnections))
    ∧ (∀ (k : String) (info : RawHexInfo) (hd : HexData),
      mkHexData k info = .ok hd →
      hd.connection_points = copyNonNull info.connection_points
      ∧ hd.latency_ms = copyNonNull info.latency_ms
      ∧ hd.avg_temperature = copyNonNull info.avg_temperature
      ∧ (∀ n : JSNum, info.connection_normalized_score = .num n →
          hd.connection_normalized_score = some (toFixedN 2 n))) := by
  constructor
  · intro k info hd hok
    obtain ⟨s, temp, dist, speed, speedNorm, distNorm, connNorm, tempNorm,
      hs, h1, h2, h3, h4, h5, h6, h7, rfl⟩ := mkHexDataV1_ok hok
    refine ⟨?_, ?_, ?_, ?_, ?_, ?_, ?_, ?_, ?_⟩
    · intro q hq
      rw [hq, truthyFixed_fin] at h1
      exact (Except.ok.injEq _ _ ▸ h1).symm
    · intro hq
      rw [hq, truthyFixed_nan] at h1
      exact (Except.ok.injEq _ _ ▸ h1).symm
    · intro hq
      rw [hq, truthyFixed_undefV] at h1
      exact (Except.ok.injEq _ _ ▸ h1).symm
    · intro hq
      rw [hq, truthyFixed_posInf] at h1
      exact (Except.ok.injEq _ _ ▸ h1).symm
    · intro q hq
      rw [hq, truthyFixed_fin] at h2
      exact (Except.ok.injEq _ _ ▸ h2).symm
    · intro q hq
      rw [hq, truthyFixed_fin] at h3
      exact (Except.ok.injEq _ _ ▸ h3).symm
    · intro q hq
      rw [hq, truthyFixed_fin] at h7
      exact (Except.ok.injEq _ _ ▸ h7).symm
    · intro ht
      show truthyOrUndef info.nbGridConnections = .undefV
      simp [truthyOrUndef, ht]
    · intro ht
      show truthyOrUndef info.nbGridConnections = info.nbGridConnections
      simp [truthyOrUndef, ht]
  · intro k info hd hok
    obtain ⟨s, cns, lns, tns, hs, h1, h2, h3, rfl⟩ := mkHexData_ok hok
    refine ⟨rfl, rfl, rfl, ?_⟩
    intro n hn
    rw [hn] at h1
    simp only [fixedOrUndef, Except.ok.injEq] at h1
    exact h1.symm

/-- Witness for C4's amended statement: `avgTemp = 0` is omitted from
the normalized record. -/
theorem aux_field_truthiness_and_copy_witness :
    (⟨"w", .fin 1, none, none, none, .undefV,
        none, none, none, none, none⟩ : HexDataV1).avgTemp = none := by
  have h := aux_field_truthiness_and_copy.1 "w"
    ⟨.num (.fin 1), .num (.fin 0), .undefV, .undefV, .undefV,
      .undefV, .undefV, .undefV, .undefV, none⟩
    ⟨"w", .fin 1, none, none, none, .undefV, none, none, none, none, none⟩
    (by norm_num [mkHexDataV1, scoreFixed2, truthyFixed, truthyOrUndef,
      AuxVal.truthy, toFixedN, clampScore, jsMin, jsMax, roundTo, round_eq,
      min_def, max_def])
  have h2 := h.1 0 rfl
  exact h2.trans (if_pos rfl)
